import Mathlib

/-!
Verification of the launch/shutdown coordinator of the risky-proxmox-agent
repository, as a shallow embedding in Lean 4.

Modelling conventions:
* Rust strings are modelled as `String` where only equality matters, and as
  `List Char` where character-level reasoning is needed (tag parsing, status
  normalization).  `str::trim` is modelled by dropping whitespace characters
  (`Char.isWhitespace`) from both ends; `to_lowercase` and
  `eq_ignore_ascii_case` are modelled char-wise via `Char.toLower`.
* Machine integers (`u64` vmids) are modelled as `Nat`; no arithmetic is
  performed on them, only equality.
* Fallible hypervisor calls return `Except ProxmoxError`.
* The hypervisor is an oracle (`LaunchEnv`, `ShutdownEnv`, `FallbackEnv`)
  supplying the listing returned by `list_vms`, the status returned by the
  i-th `vm_status` poll, and the outcome of each mutation call.  Concurrent
  writes to `requested_action` made by other request handlers while the
  drain loop runs are modelled by the oracle `reqRead`, which supplies the
  value observed by the locked read on each poll tick.
* The launch drain loop has no iteration bound in the source; it is modelled
  with explicit fuel, and running out of fuel yields a distinguished
  `diverged` outcome meaning "the invocation has not yet returned".
* Real-time sleeps are recorded as lists of slept durations in seconds.
-/

namespace RiskyProxmox

/-- `VmStatus` from src/proxmox/types.rs. -/
inductive VmStatus
  | Running
  | Stopped
  | Unknown
deriving DecidableEq, Repr

/-- `LaunchAction` from src/server.rs. -/
inductive LaunchAction
  | Shutdown
  | Hibernate
  | Terminate
  | Cancel
deriving DecidableEq, Repr

/-- `VmInfo` from src/proxmox/types.rs. -/
structure VmInfo where
  vmid : Nat
  name : String
  tags : List String
  status : VmStatus
  notes : Option String
deriving DecidableEq, Repr

/-- Whitespace predicate modelling Rust `char::is_whitespace` for trimming. -/
def isWs (c : Char) : Bool := c.isWhitespace

/-- Tag delimiter predicate from `parse_tags`: `ch == ';' || ch == ','`. -/
def isTagDelim (c : Char) : Bool := c = ';' || c = ','

/-- Rust `str::split(pred)` on a character list: splits at every delimiter,
keeping empty pieces (so the result is always nonempty). -/
def splitChars (p : Char → Bool) : List Char → List (List Char)
  | [] => [[]]
  | c :: cs =>
    if p c then [] :: splitChars p cs
    else
      match splitChars p cs with
      | [] => [[c]]
      | t :: ts => (c :: t) :: ts

/-- Rust `str::trim` on a character list: drop whitespace from both ends. -/
def trimChars (l : List Char) : List Char :=
  ((l.dropWhile isWs).reverse.dropWhile isWs).reverse

/-- `parse_tags` from src/proxmox/types.rs: split the raw string (empty when
absent) on `;`/`,`, trim each piece, drop the empty pieces. -/
def parse_tags (raw : Option (List Char)) : List (List Char) :=
  (((splitChars isTagDelim (raw.getD [])).map trimChars).filter
    fun t => !t.isEmpty)

/-- The tag pipeline as the spec words it (§3 / P4): "splitting on `;`/`,`
then trimming", dropping empties.  Kept separate from `parse_tags` so the
refinement claim compares the two. -/
def tagsSpec (s : List Char) : List (List Char) :=
  (((splitChars isTagDelim s).map trimChars).filter fun t => !t.isEmpty)

/-- Char-wise lowercasing, modelling `str::to_lowercase` on the strings the
agent compares (`"running"`, `"stopped"`). -/
def toLowerChars (l : List Char) : List Char := l.map Char.toLower

/-- `VmStatus::normalize` from src/proxmox/types.rs: lowercase the raw
string (empty when absent) and match `"running"` / `"stopped"`. -/
def normalize (raw : Option (List Char)) : VmStatus :=
  let s := toLowerChars (raw.getD [])
  if s = "running".toList then VmStatus.Running
  else if s = "stopped".toList then VmStatus.Stopped
  else VmStatus.Unknown

/-- Rust `eq_ignore_ascii_case` on strings, char-wise. -/
def eqIgnoreAsciiCase (a b : String) : Bool :=
  a.data.map Char.toLower == b.data.map Char.toLower

/-- `ProxmoxClient::post_status` endpoint path from src/proxmox/mod.rs:
`/nodes/{node}/qemu/{vmid}/status/{action}`. -/
def post_status_path (node : String) (vmid : Nat) (action : String) : String :=
  "/nodes/" ++ node ++ "/qemu/" ++ toString vmid ++ "/status/" ++ action

/-- The HTTP request issued by `post_status`: method and path. -/
def post_status_req (node : String) (vmid : Nat) (action : String) :
    String × String :=
  ("POST", post_status_path node vmid action)

/-- `ProxmoxClient::start_vm`: `post_status(vmid, "start")`. -/
def start_vm_req (node : String) (vmid : Nat) : String × String :=
  post_status_req node vmid "start"

/-- `ProxmoxClient::stop_vm`: `post_status(vmid, "shutdown")`. -/
def stop_vm_req (node : String) (vmid : Nat) : String × String :=
  post_status_req node vmid "shutdown"

/-- `ProxmoxClient::shutdown_vm`: `post_status(vmid, "shutdown")`. -/
def shutdown_vm_req (node : String) (vmid : Nat) : String × String :=
  post_status_req node vmid "shutdown"

/-- `ProxmoxClient::hibernate_vm`: `post_status(vmid, "hibernate")`. -/
def hibernate_vm_req (node : String) (vmid : Nat) : String × String :=
  post_status_req node vmid "hibernate"

/-- `ProxmoxClient::terminate_vm`: `post_status(vmid, "stop")`. -/
def terminate_vm_req (node : String) (vmid : Nat) : String × String :=
  post_status_req node vmid "stop"

/-! ## Coordinator data model (src/server.rs) -/

/-- `ProxmoxError` from src/proxmox/error.rs (transport/decode errors carry
only their displayed message in the model). -/
inductive ProxmoxError
  | Api (message : String)
  | MissingNode (vmid : Nat)
  | Reqwest (message : String)
  | Serde (message : String)
deriving DecidableEq, Repr

/-- `Display for ProxmoxError` from src/proxmox/error.rs. -/
def ProxmoxError.display : ProxmoxError → String
  | .Api message => "Proxmox API error: " ++ message
  | .MissingNode vmid => "Missing node for VM " ++ toString vmid
  | .Reqwest err => "HTTP error: " ++ err
  | .Serde err => "Parse error: " ++ err

/-- `LaunchError` from src/server.rs. -/
inductive LaunchError
  | InProgress
  | Proxmox (e : ProxmoxError)
deriving DecidableEq, Repr

/-- `ShutdownError` from src/server.rs. -/
inductive ShutdownError
  | InProgress
  | Proxmox (e : ProxmoxError)
  | ShutdownFailed (message : String)
deriving DecidableEq, Repr

/-- `LaunchStatus` from src/server.rs. -/
inductive LaunchStatus
  | Started
  | NeedsAction
  | Updated
  | AlreadyRunning
  | Cancelled
deriving DecidableEq, Repr

/-- `ShutdownStatus` from src/server.rs. -/
inductive ShutdownStatus
  | Started
  | NeedsAction
  | Cancelled
deriving DecidableEq, Repr

/-- `RunningVmInfo` from src/server.rs. -/
structure RunningVmInfo where
  vmid : Nat
  name : String
deriving DecidableEq, Repr

/-- `From<&VmInfo> for RunningVmInfo`. -/
def RunningVmInfo.ofVm (vm : VmInfo) : RunningVmInfo :=
  ⟨vm.vmid, vm.name⟩

/-- `LaunchResponse` from src/server.rs. -/
structure LaunchResponse where
  status : LaunchStatus
  message : String
  running_vm : Option RunningVmInfo
  allowed_actions : List LaunchAction
deriving DecidableEq, Repr

/-- `LaunchResponse::started`. -/
def LaunchResponse.started : LaunchResponse :=
  ⟨LaunchStatus.Started, "Launch sequence started.", none, []⟩

/-- `LaunchResponse::updated`. -/
def LaunchResponse.updated : LaunchResponse :=
  ⟨LaunchStatus.Updated, "Launch updated to terminate current VM.", none, []⟩

/-- `LaunchResponse::already_running`. -/
def LaunchResponse.alreadyRunning : LaunchResponse :=
  ⟨LaunchStatus.AlreadyRunning, "Target VM is already running.", none, []⟩

/-- `LaunchResponse::cancelled`. -/
def LaunchResponse.cancelled : LaunchResponse :=
  ⟨LaunchStatus.Cancelled, "Launch cancelled.", none, []⟩

/-- `LaunchResponse::needs_action`. -/
def LaunchResponse.needsAction (vm : VmInfo) : LaunchResponse :=
  ⟨LaunchStatus.NeedsAction, "A VM is currently running; choose an action.",
    some (RunningVmInfo.ofVm vm),
    [LaunchAction.Shutdown, LaunchAction.Hibernate, LaunchAction.Terminate,
      LaunchAction.Cancel]⟩

/-- `ShutdownResponse` from src/server.rs. -/
structure ShutdownResponse where
  status : ShutdownStatus
  message : String
  running_vm : Option RunningVmInfo
  allowed_actions : List LaunchAction
deriving DecidableEq, Repr

/-- `ShutdownResponse::started`. -/
def ShutdownResponse.started : ShutdownResponse :=
  ⟨ShutdownStatus.Started, "Host shutdown sequence started.", none, []⟩

/-- `ShutdownResponse::cancelled`. -/
def ShutdownResponse.cancelled : ShutdownResponse :=
  ⟨ShutdownStatus.Cancelled, "Host shutdown cancelled.", none, []⟩

/-- `ShutdownResponse::needs_action`. -/
def ShutdownResponse.needsAction (vm : VmInfo) : ShutdownResponse :=
  ⟨ShutdownStatus.NeedsAction,
    "A VM is currently running; choose an action before shutdown.",
    some (RunningVmInfo.ofVm vm),
    [LaunchAction.Shutdown, LaunchAction.Hibernate, LaunchAction.Terminate,
      LaunchAction.Cancel]⟩

/-- `map_launch_error` from src/server.rs: HTTP status code plus error body. -/
def map_launch_error : LaunchError → Nat × String
  | .InProgress => (409, "Launch already in progress")
  | .Proxmox e => (502, e.display)

/-- `map_shutdown_error` from src/server.rs. -/
def map_shutdown_error : ShutdownError → Nat × String
  | .InProgress => (409, "Shutdown already in progress")
  | .Proxmox e => (502, e.display)
  | .ShutdownFailed err => (502, err)

/-- `LaunchState` from src/server.rs (coordinator state, default both clear). -/
structure LaunchState where
  in_progress : Bool
  requested_action : Option LaunchAction
deriving DecidableEq, Repr

/-- `ShutdownState` from src/server.rs. -/
structure ShutdownState where
  in_progress : Bool
deriving DecidableEq, Repr

/-- A hypervisor mutation call issued by a flow (`start_vm`, `shutdown_vm`,
`hibernate_vm`, `terminate_vm`). -/
inductive HvCall
  | start (vmid : Nat)
  | shutdown (vmid : Nat)
  | hibernate (vmid : Nat)
  | terminate (vmid : Nat)
deriving DecidableEq, Repr

/-- Oracle for one `launch` invocation: the listing returned by `list_vms`,
the status returned by the i-th `vm_status` poll of the drain loop, the
outcome of each mutation call, and the `requested_action` value observed by
the locked read on poll tick i (modelling concurrent escalation writes). -/
structure LaunchEnv where
  listVms : Except ProxmoxError (List VmInfo)
  vmStatus : Nat → Except ProxmoxError VmStatus
  mutate : HvCall → Except ProxmoxError Unit
  reqRead : Nat → Option LaunchAction

/-- Outcome of a launch flow body: finished, failed, or still looping when
the fuel ran out (the invocation has not returned). -/
inductive FlowOut
  | ok
  | err (e : LaunchError)
  | diverged
deriving DecidableEq, Repr

/-- `LaunchManager::execute_action` from src/server.rs: dispatch one action
to the hypervisor; `Cancel` issues no call. Returns the call outcome and the
calls issued. -/
def executeAction (env : LaunchEnv) (vmid : Nat) (action : LaunchAction) :
    Except ProxmoxError Unit × List HvCall :=
  match action with
  | .Shutdown => (env.mutate (HvCall.shutdown vmid), [HvCall.shutdown vmid])
  | .Hibernate => (env.mutate (HvCall.hibernate vmid), [HvCall.hibernate vmid])
  | .Terminate => (env.mutate (HvCall.terminate vmid), [HvCall.terminate vmid])
  | .Cancel => (Except.ok (), [])

/-- The drain loop of `LaunchManager::run_flow` (src/server.rs lines
561-590), with fuel.  Each tick: read the displaced VM status (tick index
`i`); stop when Stopped; otherwise read `requested_action` under the lock
and, when it is `Terminate` while the current action is not, issue
`terminate_vm` and upgrade the current action; then sleep 2 s and loop. -/
def drainLoop (env : LaunchEnv) (vmid : Nat) :
    Nat → LaunchAction → Nat → FlowOut × List HvCall
  | 0, _, _ => (FlowOut.diverged, [])
  | fuel + 1, current, i =>
    match env.vmStatus i with
    | .error e => (FlowOut.err (LaunchError.Proxmox e), [])
    | .ok st =>
      if st = VmStatus.Stopped then (FlowOut.ok, [])
      else
        if env.reqRead i = some LaunchAction.Terminate ∧
            current ≠ LaunchAction.Terminate then
          match env.mutate (HvCall.terminate vmid) with
          | .error e =>
            (FlowOut.err (LaunchError.Proxmox e), [HvCall.terminate vmid])
          | .ok _ =>
            let rest := drainLoop env vmid fuel LaunchAction.Terminate (i + 1)
            (rest.1, HvCall.terminate vmid :: rest.2)
        else
          drainLoop env vmid fuel current (i + 1)

/-- `LaunchManager::run_flow` from src/server.rs: resolve the displaced
running VM (initial action defaulting to `Terminate`), drain it, then start
the target VM. -/
def runFlow (env : LaunchEnv) (target : Nat) (running_vm : Option VmInfo)
    (action : Option LaunchAction) (fuel : Nat) : FlowOut × List HvCall :=
  match running_vm with
  | some running =>
    let current := action.getD LaunchAction.Terminate
    let first := executeAction env running.vmid current
    match first.1 with
    | .error e => (FlowOut.err (LaunchError.Proxmox e), first.2)
    | .ok _ =>
      let drained := drainLoop env running.vmid fuel current 0
      match drained.1 with
      | FlowOut.ok =>
        match env.mutate (HvCall.start target) with
        | .error e =>
          (FlowOut.err (LaunchError.Proxmox e),
            first.2 ++ drained.2 ++ [HvCall.start target])
        | .ok _ =>
          (FlowOut.ok, first.2 ++ drained.2 ++ [HvCall.start target])
      | out => (out, first.2 ++ drained.2)
  | none =>
    match env.mutate (HvCall.start target) with
    | .error e => (FlowOut.err (LaunchError.Proxmox e), [HvCall.start target])
    | .ok _ => (FlowOut.ok, [HvCall.start target])

/-- First Running VM of a listing: `vms.into_iter().find(|vm| vm.status ==
VmStatus::Running)`. -/
def findRunning (vms : List VmInfo) : Option VmInfo :=
  vms.find? fun vm => decide (vm.status = VmStatus.Running)

/-- The pre-commit decision procedure of `LaunchManager::launch` run after
`list_vms` (src/server.rs lines 486-524): either an early response (left)
or the action the flow commits with (right), after easy-kill promotion. -/
def launchDecide (running_vm : Option VmInfo) (target : Nat)
    (action0 : Option LaunchAction) :
    LaunchResponse ⊕ Option LaunchAction :=
  match running_vm with
  | some running =>
    if running.vmid = target then Sum.inl LaunchResponse.alreadyRunning
    else
      let easyKill := running.tags.any fun tag => eqIgnoreAsciiCase tag "easy-kill"
      let action := if action0.isNone && easyKill then
        some LaunchAction.Terminate else action0
      match action with
      | none => Sum.inl (LaunchResponse.needsAction running)
      | some LaunchAction.Cancel => Sum.inl LaunchResponse.cancelled
      | _ => Sum.inr action
  | none =>
    if action0 = some LaunchAction.Cancel then
      Sum.inl LaunchResponse.cancelled
    else Sum.inr action0

/-- Outcome of a `launch` invocation: a response, an error, or not yet
returned (drain loop still running when the fuel ran out). -/
inductive LaunchOutcome
  | resp (r : LaunchResponse)
  | err (e : LaunchError)
  | diverged
deriving DecidableEq, Repr

/-- Result of a `launch` invocation: outcome, the coordinator state as last
written by this invocation, and the hypervisor mutation calls issued. -/
structure LaunchResult where
  outcome : LaunchOutcome
  state : LaunchState
  calls : List HvCall
deriving Repr

/-- `LaunchManager::launch` from src/server.rs (lines 462-542): the
in-progress entry check (Terminate escalation or `InProgress` rejection),
the listing, the decision procedure, the commit, the flow, and the
unconditional clear of both state fields after the flow. -/
def launchM (env : LaunchEnv) (s0 : LaunchState) (target : Nat)
    (action0 : Option LaunchAction) (fuel : Nat) : LaunchResult :=
  if s0.in_progress then
    if action0 = some LaunchAction.Terminate then
      ⟨LaunchOutcome.resp LaunchResponse.updated,
        { s0 with requested_action := some LaunchAction.Terminate }, []⟩
    else ⟨LaunchOutcome.err LaunchError.InProgress, s0, []⟩
  else
    match env.listVms with
    | .error e => ⟨LaunchOutcome.err (LaunchError.Proxmox e), s0, []⟩
    | .ok vms =>
      let running_vm := findRunning vms
      match launchDecide running_vm target action0 with
      | Sum.inl resp => ⟨LaunchOutcome.resp resp, s0, []⟩
      | Sum.inr action =>
        let flow := runFlow env target running_vm action fuel
        match flow.1 with
        | FlowOut.ok =>
          ⟨LaunchOutcome.resp LaunchResponse.started, ⟨false, none⟩, flow.2⟩
        | FlowOut.err e => ⟨LaunchOutcome.err e, ⟨false, none⟩, flow.2⟩
        | FlowOut.diverged => ⟨LaunchOutcome.diverged, ⟨true, action⟩, flow.2⟩

/-- Oracle for one `shutdown` invocation (no escalation reads). -/
structure ShutdownEnv where
  listVms : Except ProxmoxError (List VmInfo)
  vmStatus : Nat → Except ProxmoxError VmStatus
  mutate : HvCall → Except ProxmoxError Unit

/-- `ShutdownManager::execute_action` from src/server.rs. -/
def executeActionS (env : ShutdownEnv) (vmid : Nat) (action : LaunchAction) :
    Except ProxmoxError Unit × List HvCall :=
  match action with
  | .Shutdown => (env.mutate (HvCall.shutdown vmid), [HvCall.shutdown vmid])
  | .Hibernate => (env.mutate (HvCall.hibernate vmid), [HvCall.hibernate vmid])
  | .Terminate => (env.mutate (HvCall.terminate vmid), [HvCall.terminate vmid])
  | .Cancel => (Except.ok (), [])

/-- The bounded poll loop of `ShutdownManager::run_flow` (src/server.rs
lines 702-713): up to `n` iterations, reading status index `i` upward;
break on Stopped; otherwise sleep 2 s.  Returns the next unread status
index and the slept durations. -/
def shutdownDrain (env : ShutdownEnv) :
    Nat → Nat → Except ProxmoxError (Nat × List Nat)
  | 0, i => Except.ok (i, [])
  | n + 1, i =>
    match env.vmStatus i with
    | .error e => Except.error e
    | .ok st =>
      if st = VmStatus.Stopped then Except.ok (i + 1, [])
      else
        match shutdownDrain env n (i + 1) with
        | .error e => Except.error e
        | .ok r => Except.ok (r.1, 2 :: r.2)

/-- Result of the shutdown flow body: outcome, mutation calls, slept
durations, and whether the host power-off command was dispatched. -/
structure ShutdownFlowResult where
  outcome : Except ShutdownError Unit
  calls : List HvCall
  sleeps : List Nat
  hostPowerOff : Bool
deriving Repr

/-- `ShutdownManager::run_flow` from src/server.rs (lines 689-741): issue
the selected action (default `Terminate`) on the running VM, poll up to 60
times, re-read the status once, fail with `ShutdownFailed` when it is not
Stopped; otherwise (or when no VM runs) dispatch the host power-off
command. -/
def shutdownRunFlow (env : ShutdownEnv) (running_vm : Option VmInfo)
    (action : Option LaunchAction) : ShutdownFlowResult :=
  match running_vm with
  | some running =>
    let selected := action.getD LaunchAction.Terminate
    let first := executeActionS env running.vmid selected
    match first.1 with
    | .error e => ⟨Except.error (ShutdownError.Proxmox e), first.2, [], false⟩
    | .ok _ =>
      match shutdownDrain env 60 0 with
      | .error e => ⟨Except.error (ShutdownError.Proxmox e), first.2, [], false⟩
      | .ok r =>
        match env.vmStatus r.1 with
        | .error e =>
          ⟨Except.error (ShutdownError.Proxmox e), first.2, r.2, false⟩
        | .ok st =>
          if st ≠ VmStatus.Stopped then
            ⟨Except.error (ShutdownError.ShutdownFailed
                ("Timed out waiting for VM " ++ toString running.vmid ++
                  " to stop")),
              first.2, r.2, false⟩
          else ⟨Except.ok (), first.2, r.2, true⟩
  | none => ⟨Except.ok (), [], [], true⟩

/-- Result of a `shutdown` invocation. -/
structure ShutdownResult where
  outcome : Except ShutdownError ShutdownResponse
  state : ShutdownState
  calls : List HvCall
  hostPowerOff : Bool
deriving Repr

/-- `ShutdownManager::shutdown` from src/server.rs (lines 639-687): reject
when in progress, list VMs, early-return `NeedsAction`/`Cancelled`, else
commit, run the flow, and unconditionally clear `in_progress`. -/
def shutdownM (env : ShutdownEnv) (s0 : ShutdownState)
    (action : Option LaunchAction) : ShutdownResult :=
  if s0.in_progress then
    ⟨Except.error ShutdownError.InProgress, s0, [], false⟩
  else
    match env.listVms with
    | .error e => ⟨Except.error (ShutdownError.Proxmox e), s0, [], false⟩
    | .ok vms =>
      let running_vm := findRunning vms
      match running_vm with
      | some running =>
        if action.isNone then
          ⟨Except.ok (ShutdownResponse.needsAction running), s0, [], false⟩
        else if action = some LaunchAction.Cancel then
          ⟨Except.ok ShutdownResponse.cancelled, s0, [], false⟩
        else
          let flow := shutdownRunFlow env running_vm action
          match flow.outcome with
          | .ok _ =>
            ⟨Except.ok ShutdownResponse.started, ⟨false⟩, flow.calls,
              flow.hostPowerOff⟩
          | .error e => ⟨Except.error e, ⟨false⟩, flow.calls, flow.hostPowerOff⟩
      | none =>
        if action = some LaunchAction.Cancel then
          ⟨Except.ok ShutdownResponse.cancelled, s0, [], false⟩
        else
          let flow := shutdownRunFlow env running_vm action
          match flow.outcome with
          | .ok _ =>
            ⟨Except.ok ShutdownResponse.started, ⟨false⟩, flow.calls,
              flow.hostPowerOff⟩
          | .error e => ⟨Except.error e, ⟨false⟩, flow.calls, flow.hostPowerOff⟩

/-! ## Fallback watchdog (src/fallback.rs) -/

/-- Oracle for one fallback cycle: the two listings fetched 10 s apart and
the outcome of `start_vm`. -/
structure FallbackEnv where
  list1 : Except ProxmoxError (List VmInfo)
  list2 : Except ProxmoxError (List VmInfo)
  startVm : Nat → Except ProxmoxError Unit

/-- Result of one `poll_and_start` cycle. -/
structure FallbackResult where
  outcome : Except ProxmoxError Unit
  calls : List HvCall
  sleeps : List Nat
deriving Repr

/-- `poll_and_start` from src/fallback.rs (lines 25-56): skip when the
first listing shows a Running VM; otherwise sleep 10 s, re-fetch; skip when
the second listing shows a Running VM; otherwise start the VM of the second
listing whose name equals the fallback name, or log and skip when absent. -/
def pollAndStart (env : FallbackEnv) (fallbackName : String) : FallbackResult :=
  match env.list1 with
  | .error e => ⟨Except.error e, [], []⟩
  | .ok vms1 =>
    if vms1.any fun vm => decide (vm.status = VmStatus.Running) then
      ⟨Except.ok (), [], []⟩
    else
      match env.list2 with
      | .error e => ⟨Except.error e, [], [10]⟩
      | .ok vms2 =>
        if vms2.any fun vm => decide (vm.status = VmStatus.Running) then
          ⟨Except.ok (), [], [10]⟩
        else
          match vms2.find? fun vm => decide (vm.name = fallbackName) with
          | some vm =>
            match env.startVm vm.vmid with
            | .error e => ⟨Except.error e, [HvCall.start vm.vmid], [10]⟩
            | .ok _ => ⟨Except.ok (), [HvCall.start vm.vmid], [10]⟩
          | none => ⟨Except.ok (), [], [10]⟩

/-- The hypervisor calls issued by `execute_action` for one action. -/
def actionCalls (a : LaunchAction) (vmid : Nat) : List HvCall :=
  match a with
  | .Shutdown => [HvCall.shutdown vmid]
  | .Hibernate => [HvCall.hibernate vmid]
  | .Terminate => [HvCall.terminate vmid]
  | .Cancel => []

/-! ### Concrete oracles used by counterexamples and witnesses -/

/-- A trivial launch oracle: empty inventory, everything succeeds. -/
def envUnit : LaunchEnv :=
  ⟨Except.ok [], fun _ => Except.ok VmStatus.Stopped, fun _ => Except.ok (),
    fun _ => none⟩

/-- A launch oracle whose displaced VM never stops and whose locked reads
always observe a queued Terminate escalation. -/
def envNeverStop : LaunchEnv :=
  ⟨Except.ok [], fun _ => Except.ok VmStatus.Running, fun _ => Except.ok (),
    fun _ => some LaunchAction.Terminate⟩

/-- A concrete running VM. -/
def vmWork : VmInfo := ⟨300, "work", [], VmStatus.Running, none⟩

/-- A shutdown oracle whose running VM never stops. -/
def senvNeverStop : ShutdownEnv :=
  ⟨Except.ok [vmWork], fun _ => Except.ok VmStatus.Running,
    fun _ => Except.ok ()⟩

/-- A launch oracle whose sole VM 500 is Running. -/
def envAlready : LaunchEnv :=
  ⟨Except.ok [⟨500, "x", [], VmStatus.Running, none⟩],
    fun _ => Except.ok VmStatus.Running, fun _ => Except.ok (), fun _ => none⟩

/-- A concrete stopped fallback VM. -/
def vmFb : VmInfo := ⟨600, "fb", [], VmStatus.Stopped, none⟩

/-- A fallback oracle with no Running VM on either probe and a VM named
"fb" present. -/
def fenvGo : FallbackEnv :=
  ⟨Except.ok [vmFb], Except.ok [vmFb], fun _ => Except.ok ()⟩

/-! ## Theorems -/

/-- `trimChars` written via Mathlib's `rdropWhile`. -/
lemma trimChars_def (l : List Char) :
    trimChars l = (l.dropWhile isWs).rdropWhile isWs := rfl

/-- The head surviving a `dropWhile` fails the predicate. -/
lemma head?_dropWhile_false (p : Char → Bool) :
    ∀ (l : List Char) (c : Char), (l.dropWhile p).head? = some c → p c = false := by
  intro l
  induction l with
  | nil => intro c hc; simp [List.dropWhile] at hc
  | cons d ds ih =>
    intro c hc
    cases hd : p d with
    | true =>
      rw [List.dropWhile_cons_of_pos hd] at hc
      exact ih c hc
    | false =>
      rw [List.dropWhile_cons_of_neg (by simp [hd])] at hc
      simp only [List.head?_cons, Option.some.injEq] at hc
      rw [← hc]
      exact hd

/-- A list whose head fails the predicate is unchanged by `dropWhile`. -/
lemma dropWhile_eq_self_of_head (p : Char → Bool) (x : List Char)
    (h : ∀ c, x.head? = some c → p c = false) : x.dropWhile p = x := by
  cases x with
  | nil => rfl
  | cons d ds =>
    rw [List.dropWhile_cons_of_neg (by simp [h d rfl])]

/-- The head of a trimmed list still fails the whitespace predicate, so
trimming again from the left is the identity. -/
lemma dropWhile_trimChars (l : List Char) :
    (trimChars l).dropWhile isWs = trimChars l := by
  rw [trimChars_def]
  apply dropWhile_eq_self_of_head
  intro c hc
  obtain ⟨t, ht⟩ := List.rdropWhile_prefix isWs (l.dropWhile isWs)
  have hb : (l.dropWhile isWs).rdropWhile isWs ≠ [] := by
    intro hnil
    rw [hnil] at hc
    simp at hc
  have hhead : (l.dropWhile isWs).head? = some c := by
    rw [← ht]
    cases hbb : (l.dropWhile isWs).rdropWhile isWs with
    | nil => exact absurd hbb hb
    | cons e es =>
      rw [hbb] at hc
      simp only [List.cons_append, List.head?_cons] at hc ⊢
      exact hc
  exact head?_dropWhile_false isWs l c hhead

/-- Rust `str::trim` is idempotent. -/
lemma trimChars_idem (l : List Char) : trimChars (trimChars l) = trimChars l := by
  rw [trimChars_def (trimChars l), dropWhile_trimChars, trimChars_def,
    List.rdropWhile_idempotent]

/-- C7: `VmStatus::normalize` maps every raw string into
{Running, Stopped, Unknown}; it yields Running exactly when the lowercased
input is "running", Stopped exactly when it is "stopped", and Unknown on
every other string. -/
theorem normalize_characterization (x : List Char) :
    (normalize (some x) = VmStatus.Running ∨
      normalize (some x) = VmStatus.Stopped ∨
      normalize (some x) = VmStatus.Unknown) ∧
    (normalize (some x) = VmStatus.Running ↔ toLowerChars x = "running".toList) ∧
    (normalize (some x) = VmStatus.Stopped ↔ toLowerChars x = "stopped".toList) ∧
    (toLowerChars x ≠ "running".toList → toLowerChars x ≠ "stopped".toList →
      normalize (some x) = VmStatus.Unknown) := by
  have hrs : ("running".toList : List Char) ≠ "stopped".toList := by decide
  simp only [normalize, Option.getD]
  by_cases h1 : toLowerChars x = "running".toList
  · rw [if_pos h1]
    exact ⟨Or.inl rfl, ⟨fun _ => h1, fun _ => rfl⟩,
      ⟨fun h => absurd h (by decide), fun h => absurd (h1.symm.trans h) hrs⟩,
      fun hn _ => absurd h1 hn⟩
  · rw [if_neg h1]
    by_cases h2 : toLowerChars x = "stopped".toList
    · rw [if_pos h2]
      exact ⟨Or.inr (Or.inl rfl),
        ⟨fun h => absurd h (by decide), fun h => absurd (h.symm.trans h2) hrs⟩,
        ⟨fun _ => h2, fun _ => rfl⟩, fun _ hn => absurd h2 hn⟩
    · rw [if_neg h2]
      exact ⟨Or.inr (Or.inr rfl),
        ⟨fun h => absurd h (by decide), fun h => absurd h h1⟩,
        ⟨fun h => absurd h (by decide), fun h => absurd h h2⟩,
        fun _ _ => rfl⟩

/-- Witness for C7 at the concrete inputs "PAUSED", "Running". -/
theorem normalize_characterization_witness :
    normalize (some "PAUSED".toList) = VmStatus.Unknown ∧
    normalize (some "Running".toList) = VmStatus.Running := by
  refine ⟨(normalize_characterization "PAUSED".toList).2.2.2 ?_ ?_,
    ((normalize_characterization "Running".toList).2.1).mpr ?_⟩ <;> decide

/-- String append is associative (helper for endpoint path equalities). -/
lemma strAppendAssoc (a b c : String) : (a ++ b) ++ c = a ++ (b ++ c) := by
  apply String.ext
  simp

/-- C8: `stop_vm` and `shutdown_vm` issue the same POST
(`/status/shutdown`); `terminate_vm` POSTs `/status/stop`; `start_vm` and
`hibernate_vm` POST `/status/start` and `/status/hibernate`. -/
theorem client_endpoint_requests (node : String) (vmid : Nat) :
    stop_vm_req node vmid = shutdown_vm_req node vmid ∧
    shutdown_vm_req node vmid = post_status_req node vmid "shutdown" ∧
    terminate_vm_req node vmid = post_status_req node vmid "stop" ∧
    start_vm_req node vmid = post_status_req node vmid "start" ∧
    hibernate_vm_req node vmid = post_status_req node vmid "hibernate" ∧
    (stop_vm_req node vmid).1 = "POST" ∧
    (stop_vm_req node vmid).2 =
      "/nodes/" ++ node ++ "/qemu/" ++ toString vmid ++ "/status/shutdown" ∧
    (terminate_vm_req node vmid).2 =
      "/nodes/" ++ node ++ "/qemu/" ++ toString vmid ++ "/status/stop" := by
  refine ⟨rfl, rfl, rfl, rfl, rfl, rfl, ?_, ?_⟩ <;>
    · show post_status_path node vmid _ = _
      rw [post_status_path, strAppendAssoc]
      rfl

/-- C6: `parse_tags` is exactly split-on-`;`/`,`, trim, drop-empties; its
entries are nonempty, are their own trims (hence not whitespace-only), and
appear as a sublist of the trimmed pieces in input order. -/
theorem parse_tags_correct (raw : List Char) :
    parse_tags (some raw) = tagsSpec raw ∧
    (∀ t ∈ parse_tags (some raw), t ≠ [] ∧ trimChars t = t) ∧
    (parse_tags (some raw)).Sublist
      ((splitChars isTagDelim raw).map trimChars) := by
  refine ⟨rfl, ?_, ?_⟩
  · intro t ht
    have ht2 := List.mem_filter.mp ht
    have hne : t ≠ [] := by
      have := ht2.2
      simpa [List.isEmpty_iff] using this
    obtain ⟨s, _, hs⟩ := List.mem_map.mp ht2.1
    refine ⟨hne, ?_⟩
    rw [← hs, trimChars_idem]
  · exact List.filter_sublist _

/-- Witness for C6 at the concrete input "alpha;beta, gamma ". -/
theorem parse_tags_correct_witness :
    "alpha".toList ≠ [] ∧ trimChars "alpha".toList = "alpha".toList :=
  (parse_tags_correct "alpha;beta, gamma ".toList).2.1 "alpha".toList
    (by decide)

/-! ### Coordinator theorems -/

/-- C2: a launch request arriving while `in_progress` is true either queues
a Terminate escalation (storing it in `requested_action` and returning the
`Updated` response) or fails with the `InProgress` error, which the request
surface maps to HTTP 409. -/
theorem launch_in_progress_entry (env : LaunchEnv) (s0 : LaunchState)
    (target : Nat) (action0 : Option LaunchAction) (fuel : Nat)
    (h : s0.in_progress = true) :
    (action0 = some LaunchAction.Terminate →
      launchM env s0 target action0 fuel =
        ⟨LaunchOutcome.resp LaunchResponse.updated,
          { s0 with requested_action := some LaunchAction.Terminate }, []⟩) ∧
    (action0 ≠ some LaunchAction.Terminate →
      launchM env s0 target action0 fuel =
        ⟨LaunchOutcome.err LaunchError.InProgress, s0, []⟩ ∧
      (map_launch_error LaunchError.InProgress).1 = 409) := by
  constructor
  · intro ha
    simp [launchM, h, ha]
  · intro ha
    refine ⟨?_, rfl⟩
    simp [launchM, h, ha]

/-- Witness for C2: both entry branches at concrete inputs. -/
theorem launch_in_progress_entry_witness :
    launchM envUnit ⟨true, none⟩ 7 (some LaunchAction.Terminate) 0 =
      ⟨LaunchOutcome.resp LaunchResponse.updated,
        ⟨true, some LaunchAction.Terminate⟩, []⟩ ∧
    launchM envUnit ⟨true, none⟩ 7 (some LaunchAction.Shutdown) 0 =
      ⟨LaunchOutcome.err LaunchError.InProgress, ⟨true, none⟩, []⟩ :=
  ⟨(launch_in_progress_entry envUnit ⟨true, none⟩ 7
      (some LaunchAction.Terminate) 0 rfl).1 rfl,
    ((launch_in_progress_entry envUnit ⟨true, none⟩ 7
      (some LaunchAction.Shutdown) 0 rfl).2 (by decide)).1⟩

/-- C4: when the coordinator is idle and the listing's first Running VM is
the launch target, `launch` returns `AlreadyRunning`, leaves the state
untouched and issues no hypervisor mutation. -/
theorem launch_already_running_frame (env : LaunchEnv) (s0 : LaunchState)
    (target fuel : Nat) (action0 : Option LaunchAction) (vms : List VmInfo)
    (r : VmInfo)
    (h0 : s0.in_progress = false)
    (h1 : env.listVms = Except.ok vms)
    (h2 : findRunning vms = some r)
    (h3 : r.vmid = target) :
    launchM env s0 target action0 fuel =
      ⟨LaunchOutcome.resp LaunchResponse.alreadyRunning, s0, []⟩ := by
  simp [launchM, h0, h1, h2, launchDecide, h3]

/-- Witness for C4: spec scenario 5 (VM 500 already running). -/
theorem launch_already_running_frame_witness :
    launchM envAlready ⟨false, none⟩ 500 none 3 =
      ⟨LaunchOutcome.resp LaunchResponse.alreadyRunning, ⟨false, none⟩, []⟩ :=
  launch_already_running_frame envAlready ⟨false, none⟩ 500 3 none
    [⟨500, "x", [], VmStatus.Running, none⟩]
    ⟨500, "x", [], VmStatus.Running, none⟩ rfl rfl rfl rfl

/-- C1 counterexample: a launch invocation that arrives while a flow is in
progress returns (with the `Updated` response variant) while `in_progress`
is still true and `requested_action` is Some — contradicting the claim that
every returning invocation leaves `in_progress` false and
`requested_action` None. -/
theorem launch_midflight_entry_leaves_in_progress :
    (launchM envUnit ⟨true, none⟩ 7 (some LaunchAction.Terminate) 0).outcome =
      LaunchOutcome.resp LaunchResponse.updated ∧
    (launchM envUnit ⟨true, none⟩ 7
        (some LaunchAction.Terminate) 0).state.in_progress = true ∧
    (launchM envUnit ⟨true, none⟩ 7
        (some LaunchAction.Terminate) 0).state.requested_action =
      some LaunchAction.Terminate :=
  ⟨rfl, rfl, rfl⟩

/-- `shutdown` clears `in_progress` on every returning path when it starts
idle. -/
lemma shutdownM_clears (env : ShutdownEnv) (t0 : ShutdownState)
    (action : Option LaunchAction) (ht : t0.in_progress = false) :
    (shutdownM env t0 action).state.in_progress = false := by
  cases hL : env.listVms with
  | error e => simp [shutdownM, ht, hL]
  | ok vms =>
    cases hr : findRunning vms with
    | some r =>
      by_cases hn : action.isNone
      · simp [shutdownM, ht, hL, hr, hn]
      · by_cases hcan : action = some LaunchAction.Cancel
        · simp [shutdownM, ht, hL, hr, hn, hcan]
        · cases ho : (shutdownRunFlow env (some r) action).outcome with
          | ok u => simp [shutdownM, ht, hL, hr, hn, hcan, ho]
          | error e => simp [shutdownM, ht, hL, hr, hn, hcan, ho]
    | none =>
      by_cases hcan : action = some LaunchAction.Cancel
      · simp [shutdownM, ht, hL, hr, hcan]
      · cases ho : (shutdownRunFlow env none action).outcome with
        | ok u => simp [shutdownM, ht, hL, hr, hcan, ho]
        | error e => simp [shutdownM, ht, hL, hr, hcan, ho]

/-- `launch` clears both state fields on every returning path when it
starts idle. -/
lemma launchM_clears (env : LaunchEnv) (s0 : LaunchState) (target : Nat)
    (action0 : Option LaunchAction) (fuel : Nat)
    (hs : s0.in_progress = false) (hr : s0.requested_action = none)
    (hret : (launchM env s0 target action0 fuel).outcome ≠
      LaunchOutcome.diverged) :
    (launchM env s0 target action0 fuel).state.in_progress = false ∧
    (launchM env s0 target action0 fuel).state.requested_action = none := by
  cases hL : env.listVms with
  | error e => constructor <;> simp [launchM, hs, hL, hr]
  | ok vms =>
    cases hD : launchDecide (findRunning vms) target action0 with
    | inl resp => constructor <;> simp [launchM, hs, hL, hD, hr]
    | inr act =>
      cases hF : (runFlow env target (findRunning vms) act fuel).1 with
      | ok => constructor <;> simp [launchM, hs, hL, hD, hF]
      | err e => constructor <;> simp [launchM, hs, hL, hD, hF]
      | diverged =>
        exact absurd (by simp [launchM, hs, hL, hD, hF]) hret

/-- C1 (amended): after any `launch` or `shutdown` invocation that begins
with the coordinator idle and that returns (any response variant) or
errors, `in_progress` is false and, for launch, `requested_action` is None.
(Invocations arriving while a flow is in progress return with `in_progress`
still true; the owning flow's exit clears it.) -/
theorem coordinator_state_cleared_on_return
    (lenv : LaunchEnv) (senv : ShutdownEnv) (s0 : LaunchState)
    (t0 : ShutdownState) (target : Nat) (a b : Option LaunchAction)
    (fuel : Nat)
    (hs : s0.in_progress = false) (hr : s0.requested_action = none)
    (ht : t0.in_progress = false)
    (hret : (launchM lenv s0 target a fuel).outcome ≠
      LaunchOutcome.diverged) :
    (launchM lenv s0 target a fuel).state.in_progress = false ∧
    (launchM lenv s0 target a fuel).state.requested_action = none ∧
    (shutdownM senv t0 b).state.in_progress = false :=
  ⟨(launchM_clears lenv s0 target a fuel hs hr hret).1,
    (launchM_clears lenv s0 target a fuel hs hr hret).2,
    shutdownM_clears senv t0 b ht⟩

/-- Witness for C1 (amended) at concrete inputs, including a shutdown flow
that times out (errors) yet clears its flag. -/
theorem coordinator_state_cleared_on_return_witness :
    (launchM envUnit ⟨false, none⟩ 7 none 1).state.in_progress = false ∧
    (launchM envUnit ⟨false, none⟩ 7 none 1).state.requested_action = none ∧
    (shutdownM senvNeverStop ⟨false⟩
        (some LaunchAction.Shutdown)).state.in_progress = false :=
  coordinator_state_cleared_on_return envUnit senvNeverStop ⟨false, none⟩
    ⟨false⟩ 7 none (some LaunchAction.Shutdown) 1 rfl rfl rfl (by decide)

/-- C3: on a poll tick whose status is not Stopped, if the locked read of
`requested_action` yields Terminate while the flow's current action is not
yet Terminate, the drain loop issues `terminate_vm` on the displaced VM as
its next call, before sleeping, and continues with the current action
upgraded to Terminate. -/
theorem drain_escalation_next_tick (env : LaunchEnv) (vmid : Nat)
    (fuel i : Nat) (current : LaunchAction) (st : VmStatus)
    (hst : env.vmStatus i = Except.ok st) (hns : st ≠ VmStatus.Stopped)
    (hreq : env.reqRead i = some LaunchAction.Terminate)
    (hcur : current ≠ LaunchAction.Terminate) :
    (drainLoop env vmid (fuel + 1) current i).2.head? =
      some (HvCall.terminate vmid) ∧
    (env.mutate (HvCall.terminate vmid) = Except.ok () →
      drainLoop env vmid (fuel + 1) current i =
        ((drainLoop env vmid fuel LaunchAction.Terminate (i + 1)).1,
          HvCall.terminate vmid ::
            (drainLoop env vmid fuel LaunchAction.Terminate (i + 1)).2)) := by
  constructor
  · cases hm : env.mutate (HvCall.terminate vmid) with
    | error e => simp [drainLoop, hst, hns, hreq, hcur, hm]
    | ok u => simp [drainLoop, hst, hns, hreq, hcur, hm]
  · intro hm
    simp [drainLoop, hst, hns, hreq, hcur, hm]

/-- Witness for C3: with a VM that never stops, a Shutdown-draining flow
whose lock reads observe Terminate issues `terminate_vm` first. -/
theorem drain_escalation_next_tick_witness :
    (drainLoop envNeverStop 300 3 LaunchAction.Shutdown 0).2.head? =
      some (HvCall.terminate 300) :=
  (drain_escalation_next_tick envNeverStop 300 2 0 LaunchAction.Shutdown
    VmStatus.Running rfl (by decide) rfl (by decide)).1

/-- Once the current action is Terminate, the drain loop never issues a
call again. -/
lemma drainLoop_terminate_nil (env : LaunchEnv) (vmid : Nat) :
    ∀ (fuel i : Nat),
      (drainLoop env vmid fuel LaunchAction.Terminate i).2 = [] := by
  intro fuel
  induction fuel with
  | zero => intro i; simp [drainLoop]
  | succ n ih =>
    intro i
    cases h : env.vmStatus i with
    | error e => simp [drainLoop, h]
    | ok st =>
      by_cases hs : st = VmStatus.Stopped
      · simp [drainLoop, h, hs]
      · simp [drainLoop, h, hs, ih]

/-- Every call the drain loop issues is `terminate_vm` on the drained VM,
and there is at most one such call. -/
lemma drainLoop_calls_terminate (env : LaunchEnv) (vmid : Nat) :
    ∀ (fuel : Nat) (current : LaunchAction) (i : Nat),
      (∀ c ∈ (drainLoop env vmid fuel current i).2,
        c = HvCall.terminate vmid) ∧
      (drainLoop env vmid fuel current i).2.length ≤ 1 := by
  intro fuel
  induction fuel with
  | zero => intro current i; simp [drainLoop]
  | succ n ih =>
    intro current i
    cases h : env.vmStatus i with
    | error e => simp [drainLoop, h]
    | ok st =>
      by_cases hs : st = VmStatus.Stopped
      · simp [drainLoop, h, hs]
      · by_cases hesc : env.reqRead i = some LaunchAction.Terminate ∧
            current ≠ LaunchAction.Terminate
        · cases hm : env.mutate (HvCall.terminate vmid) with
          | error e => simp [drainLoop, h, hs, hesc, hm]
          | ok u =>
            have hnil := drainLoop_terminate_nil env vmid n (i + 1)
            simp [drainLoop, h, hs, hesc, hm, hnil]
        · have hrec := ih current (i + 1)
          simpa [drainLoop, h, hs, hesc] using hrec

/-- C10: within one flow, the drain loop's escalation branch issues
`terminate_vm` at most once, and issues nothing at all when the current
action is already Terminate, however the `requested_action` reads come
out. -/
theorem drain_escalation_at_most_once (env : LaunchEnv) (vmid fuel i : Nat)
    (current : LaunchAction) :
    (∀ c ∈ (drainLoop env vmid fuel current i).2,
      c = HvCall.terminate vmid) ∧
    (drainLoop env vmid fuel current i).2.length ≤ 1 ∧
    (drainLoop env vmid fuel LaunchAction.Terminate i).2 = [] :=
  ⟨(drainLoop_calls_terminate env vmid fuel current i).1,
    (drainLoop_calls_terminate env vmid fuel current i).2,
    drainLoop_terminate_nil env vmid fuel i⟩

/-- Witness for C10: concrete drain with repeated Terminate reads issues
exactly one call, and none once the action is Terminate. -/
theorem drain_escalation_at_most_once_witness :
    HvCall.terminate 300 = HvCall.terminate 300 ∧
    (drainLoop envNeverStop 300 3 LaunchAction.Shutdown 0).2.length ≤ 1 ∧
    (drainLoop envNeverStop 300 3 LaunchAction.Terminate 0).2 = [] :=
  ⟨(drain_escalation_at_most_once envNeverStop 300 3 0
        LaunchAction.Shutdown).1 (HvCall.terminate 300) (by decide),
    (drain_escalation_at_most_once envNeverStop 300 3 0
        LaunchAction.Shutdown).2.1,
    (drain_escalation_at_most_once envNeverStop 300 3 0
        LaunchAction.Shutdown).2.2⟩

/-- When every polled status is non-Stopped, the shutdown poll loop runs
all its iterations, sleeping 2 s each time. -/
lemma shutdownDrain_exhaust (env : ShutdownEnv) :
    ∀ (n i : Nat),
      (∀ j, j < n → ∃ st, env.vmStatus (i + j) = Except.ok st ∧
        st ≠ VmStatus.Stopped) →
      shutdownDrain env n i = Except.ok (i + n, List.replicate n 2) := by
  intro n
  induction n with
  | zero => intro i _; simp [shutdownDrain]
  | succ m ih =>
    intro i h
    obtain ⟨st, hst, hns⟩ := h 0 (Nat.succ_pos m)
    rw [Nat.add_zero] at hst
    have hrest : ∀ j, j < m → ∃ st, env.vmStatus ((i + 1) + j) =
        Except.ok st ∧ st ≠ VmStatus.Stopped := by
      intro j hj
      have hh := h (j + 1) (by omega)
      rwa [show i + (j + 1) = (i + 1) + j by omega] at hh
    have hrec := ih (i + 1) hrest
    rw [show i + (m + 1) = (i + 1) + m by omega, List.replicate_succ]
    simp [shutdownDrain, hst, hns, hrec]

/-- C5: a committed shutdown flow whose running VM is never observed
Stopped across the 60 poll iterations (2 s apart) and the final re-read
issues only the chosen action (defaulting to Terminate), fails with
`ShutdownFailed("Timed out waiting for VM <vmid> to stop")` — mapped to
HTTP 502 — and never dispatches the host power-off command. -/
theorem shutdown_timeout_502 (env : ShutdownEnv) (running : VmInfo)
    (action : Option LaunchAction) (stf : VmStatus)
    (hmut : ∀ c, env.mutate c = Except.ok ())
    (hst : ∀ j, j < 60 → ∃ st, env.vmStatus j = Except.ok st ∧
      st ≠ VmStatus.Stopped)
    (hfin : env.vmStatus 60 = Except.ok stf)
    (hnstop : stf ≠ VmStatus.Stopped) :
    shutdownRunFlow env (some running) action =
      ⟨Except.error (ShutdownError.ShutdownFailed
          ("Timed out waiting for VM " ++ toString running.vmid ++
            " to stop")),
        actionCalls (action.getD LaunchAction.Terminate) running.vmid,
        List.replicate 60 2, false⟩ ∧
    (map_shutdown_error (ShutdownError.ShutdownFailed
        ("Timed out waiting for VM " ++ toString running.vmid ++
          " to stop"))).1 = 502 := by
  have hfirst : executeActionS env running.vmid
      (action.getD LaunchAction.Terminate) =
      (Except.ok (), actionCalls (action.getD LaunchAction.Terminate)
        running.vmid) := by
    cases action.getD LaunchAction.Terminate <;>
      simp [executeActionS, actionCalls, hmut]
  have hdrain : shutdownDrain env 60 0 =
      Except.ok (60, List.replicate 60 2) := by
    have hh := shutdownDrain_exhaust env 60 0 (by simpa using hst)
    simpa using hh
  refine ⟨?_, rfl⟩
  simp [shutdownRunFlow, hfirst, hdrain, hfin, hnstop]

/-- Witness for C5: spec scenario 6 with a VM that never stops under a
polite Shutdown action. -/
theorem shutdown_timeout_502_witness :
    shutdownRunFlow senvNeverStop (some vmWork)
        (some LaunchAction.Shutdown) =
      ⟨Except.error (ShutdownError.ShutdownFailed
          ("Timed out waiting for VM " ++ toString vmWork.vmid ++
            " to stop")),
        actionCalls LaunchAction.Shutdown vmWork.vmid,
        List.replicate 60 2, false⟩ :=
  (shutdown_timeout_502 senvNeverStop vmWork (some LaunchAction.Shutdown)
    VmStatus.Running (fun _ => rfl)
    (fun _ _ => ⟨VmStatus.Running, rfl, by decide⟩) rfl (by decide)).1

/-- When a fallback cycle issues `start_vm`, both probes returned listings
with no Running VM, the second listing's first name match is the started
VM, and the cycle slept 10 s between the probes. -/
lemma pollAndStart_start_mem (env : FallbackEnv) (name : String)
    (vmid : Nat)
    (hmem : HvCall.start vmid ∈ (pollAndStart env name).calls) :
    ∃ vms1 vms2 vm, env.list1 = Except.ok vms1 ∧
      env.list2 = Except.ok vms2 ∧
      (∀ v ∈ vms1, v.status ≠ VmStatus.Running) ∧
      (∀ v ∈ vms2, v.status ≠ VmStatus.Running) ∧
      vms2.find? (fun v => decide (v.name = name)) = some vm ∧
      vm.vmid = vmid ∧ (pollAndStart env name).sleeps = [10] := by
  cases h1 : env.list1 with
  | error e => simp [pollAndStart, h1] at hmem
  | ok vms1 =>
    by_cases hr1 : (vms1.any fun vm => decide (vm.status = VmStatus.Running)) = true
    · simp [pollAndStart, h1, hr1] at hmem
    · cases h2 : env.list2 with
      | error e => simp [pollAndStart, h1, hr1, h2] at hmem
      | ok vms2 =>
        by_cases hr2 : (vms2.any fun vm => decide (vm.status = VmStatus.Running)) = true
        · simp [pollAndStart, h1, hr1, h2, hr2] at hmem
        · cases hf : vms2.find? (fun v => decide (v.name = name)) with
          | none => simp [pollAndStart, h1, hr1, h2, hr2, hf] at hmem
          | some vm =>
            have hall1 : ∀ v ∈ vms1, v.status ≠ VmStatus.Running := by
              intro v hv hstat
              exact hr1 (List.any_eq_true.mpr ⟨v, hv, by simp [hstat]⟩)
            have hall2 : ∀ v ∈ vms2, v.status ≠ VmStatus.Running := by
              intro v hv hstat
              exact hr2 (List.any_eq_true.mpr ⟨v, hv, by simp [hstat]⟩)
            cases hs : env.startVm vm.vmid with
            | error er =>
              have hvm : vm.vmid = vmid := by
                simp [pollAndStart, h1, hr1, h2, hr2, hf, hs] at hmem
                exact hmem.symm
              exact ⟨vms1, vms2, vm, rfl, rfl, hall1, hall2, hf, hvm,
                by simp [pollAndStart, h1, hr1, h2, hr2, hf, hs]⟩
            | ok u =>
              have hvm : vm.vmid = vmid := by
                simp [pollAndStart, h1, hr1, h2, hr2, hf, hs] at hmem
                exact hmem.symm
              exact ⟨vms1, vms2, vm, rfl, rfl, hall1, hall2, hf, hvm,
                by simp [pollAndStart, h1, hr1, h2, hr2, hf, hs]⟩

/-- C9: a fallback cycle issues `start_vm vmid` exactly when both probes
(10 s apart, witnessed by the recorded sleep) observe no Running VM and the
second listing's first VM named exactly like the configured fallback has
that vmid; a Running VM on the first probe makes the cycle do nothing, and
an absent name makes it skip without calls. -/
theorem fallback_dampener (env : FallbackEnv) (name : String) :
    (∀ vmid, HvCall.start vmid ∈ (pollAndStart env name).calls ↔
      ∃ vms1 vms2 vm, env.list1 = Except.ok vms1 ∧
        env.list2 = Except.ok vms2 ∧
        (∀ v ∈ vms1, v.status ≠ VmStatus.Running) ∧
        (∀ v ∈ vms2, v.status ≠ VmStatus.Running) ∧
        vms2.find? (fun v => decide (v.name = name)) = some vm ∧
        vm.vmid = vmid) ∧
    (∀ vmid, HvCall.start vmid ∈ (pollAndStart env name).calls →
      (pollAndStart env name).sleeps = [10]) ∧
    (∀ vms1, env.list1 = Except.ok vms1 →
      (∃ v ∈ vms1, v.status = VmStatus.Running) →
      pollAndStart env name = ⟨Except.ok (), [], []⟩) ∧
    (∀ vms2, env.list2 = Except.ok vms2 →
      vms2.find? (fun v => decide (v.name = name)) = none →
      (pollAndStart env name).calls = []) := by
  refine ⟨fun vmid => ⟨fun hmem => ?_, fun hex => ?_⟩,
    fun vmid hmem => ?_, fun vms1 hv1 hrun => ?_, fun vms2 hv2 hfind => ?_⟩
  · obtain ⟨a, b, c, u1, u2, u3, u4, u5, u6, _⟩ :=
      pollAndStart_start_mem env name vmid hmem
    exact ⟨a, b, c, u1, u2, u3, u4, u5, u6⟩
  · obtain ⟨vms1, vms2, vm, hv1, hv2, hall1, hall2, hf, hvm⟩ := hex
    subst hvm
    have hr1 : (vms1.any fun vm => decide (vm.status = VmStatus.Running)) = false := by
      simp only [List.any_eq_false]
      intro v hv
      simpa using hall1 v hv
    have hr2 : (vms2.any fun vm => decide (vm.status = VmStatus.Running)) = false := by
      simp only [List.any_eq_false]
      intro v hv
      simpa using hall2 v hv
    cases hs : env.startVm vm.vmid <;>
      simp [pollAndStart, hv1, hv2, hr1, hr2, hf, hs]
  · obtain ⟨_, _, _, _, _, _, _, _, _, hsl⟩ :=
      pollAndStart_start_mem env name vmid hmem
    exact hsl
  · have hr1 : (vms1.any fun vm => decide (vm.status = VmStatus.Running)) = true :=
      List.any_eq_true.mpr
        (by obtain ⟨v, hv, hstat⟩ := hrun; exact ⟨v, hv, by simp [hstat]⟩)
    simp [pollAndStart, hv1, hr1]
  · cases h1 : env.list1 with
    | error e => simp [pollAndStart, h1]
    | ok vms1 =>
      by_cases hr1 : (vms1.any fun vm => decide (vm.status = VmStatus.Running)) = true
      · simp [pollAndStart, h1, hr1]
      · by_cases hr2 : (vms2.any fun vm => decide (vm.status = VmStatus.Running)) = true
        · simp [pollAndStart, h1, hr1, hv2, hr2]
        · simp [pollAndStart, h1, hr1, hv2, hr2, hfind]

/-- Witness for C9: a concrete idle inventory across both probes with the
fallback VM present yields a `start_vm` on its vmid. -/
theorem fallback_dampener_witness :
    HvCall.start 600 ∈ (pollAndStart fenvGo "fb").calls :=
  ((fallback_dampener fenvGo "fb").1 600).mpr
    ⟨[vmFb], [vmFb], vmFb, rfl, rfl, by decide, by decide, by decide, rfl⟩

end RiskyProxmox
